import Mathlib

/-
Verification of the ec2ctl multi-region inventory and action-dispatch engine.

The Go source is shallowly embedded: the AWS SDK calls are modelled as
oracle functions passed in as parameters, and every adapter function is a
pure Lean function of its inputs and of those oracles.  Mutating functions
additionally return the trace of provider calls they issued, so that the
dry-run-then-commit protocol can be stated as a property of the trace.
-/

namespace Ec2ctl

/-- Action name constant `InstanceStart` from the adapter package. -/
def InstanceStart : String := "start"

/-- Action name constant `InstanceStop` from the adapter package. -/
def InstanceStop : String := "stop"

/-- Action name constant `InstanceStatus` from the adapter package. -/
def InstanceStatus : String := "status"

/-- Action name constant `InstanceHibernate` from the adapter package. -/
def InstanceHibernate : String := "hibernate"

/-- Error code constant `DryRunOperation` from the adapter package. -/
def DryRunOperation : String := "DryRunOperation"

/-- AWS SDK state-name constant for `pending`. -/
def InstanceStateNamePending : String := "pending"

/-- AWS SDK state-name constant for `running`. -/
def InstanceStateNameRunning : String := "running"

/-- AWS SDK state-name constant for `shutting-down`. -/
def InstanceStateNameShuttingDown : String := "shutting-down"

/-- AWS SDK state-name constant for `stopping`. -/
def InstanceStateNameStopping : String := "stopping"

/-- AWS SDK state-name constant for `stopped`. -/
def InstanceStateNameStopped : String := "stopped"

/-- AWS SDK state-name constant for `terminated`. -/
def InstanceStateNameTerminated : String := "terminated"

/-- AWS SDK lifecycle constant for on-demand instances. -/
def InstanceLifecycleOnDemand : String := "on-demand"

/-- AWS SDK lifecycle constant for spot instances. -/
def InstanceLifecycleTypeSpot : String := "spot"

/-- A Go `error` value as observed by the adapter code: either a smithy
`APIError` carrying an error code (what `errors.As(err, &ae)` extracts),
or any other error.  `msg` models `err.Error()`. -/
inductive GoError where
  | api (code : String) (msg : String)
  | other (msg : String)
deriving DecidableEq, Repr

/-- Mirrors the Go pattern `errors.As(err, &ae) && ae.ErrorCode() == code`. -/
def errIsCode (e : GoError) (code : String) : Bool :=
  match e with
  | .api c _ => c == code
  | .other _ => false

/-- Mirrors `err.Error()`, the string printed by the error-logging paths. -/
def errMessage : GoError → String
  | .api _ m => m
  | .other m => m

/-- The `Instance` struct from the adapter package (field for field; the Go
field `Type` is spelled `Type'` because `Type` is reserved in Lean). -/
structure Instance where
  Name : String
  ID : String
  Status : String
  Type' : String
  Lifecycle : String
  Environment : String
  IP : String
  SpotInstanceType : String
  Region : String
  AZ : String
  Hibernation : Bool
deriving DecidableEq, Repr

/-- The zero value a freshly declared `var instance Instance` has in Go. -/
def Instance.zero : Instance :=
  { Name := "", ID := "", Status := "", Type' := "", Lifecycle := ""
    Environment := "", IP := "", SpotInstanceType := "", Region := ""
    AZ := "", Hibernation := false }

/-- The `RegionSummary` struct from the adapter package. -/
structure RegionSummary where
  Region : String
  Instances : List Instance
deriving DecidableEq, Repr

/-- The `AccountSummary` slice type from the adapter package. -/
abbrev AccountSummary := List RegionSummary

/-- An EC2 `types.Filter` value (`Name` plus `Values`). -/
structure Filter where
  name : String
  values : List String
deriving DecidableEq, Repr

/-- The five states used by the default branch of the state-filter switch in
`GetDeployedInstances`. -/
def statusEligibleStates : List String :=
  [InstanceStateNamePending, InstanceStateNameRunning,
   InstanceStateNameShuttingDown, InstanceStateNameStopping,
   InstanceStateNameStopped]

/-- The `switch action` block of `GetDeployedInstances` that builds the
`instance-state-name` filter: `InstanceStop` maps to running, `InstanceStart`
maps to stopped, and every other action (including hibernate and status)
falls into the default branch with the five non-terminated states. -/
def stateFilter (action : String) : Filter :=
  if action == InstanceStop then
    { name := "instance-state-name", values := [InstanceStateNameRunning] }
  else if action == InstanceStart then
    { name := "instance-state-name", values := [InstanceStateNameStopped] }
  else
    { name := "instance-state-name", values := statusEligibleStates }

/-- The full filter list `GetDeployedInstances` sends to `DescribeInstances`:
the state filter, one `tag:`-prefixed filter per tag pair, and an
`instance-id` filter only when the explicit id list is non-empty. -/
def buildFilters (action : String) (tags : List (String × String))
    (instanceIDs : List String) : List Filter :=
  let filters := [stateFilter action]
  let filters := filters ++ tags.map (fun t => { name := "tag:" ++ t.1, values := [t.2] })
  if instanceIDs.length != 0 then
    filters ++ [{ name := "instance-id", values := instanceIDs }]
  else filters

/-- One raw instance record of a `DescribeInstances` reservation, with the
pointer-typed SDK fields modelled as `Option`. `stateReasonCode` is the
dereferenced `StateReason.Code` when a `StateReason` is present. -/
structure RawInstance where
  instanceId : Option String
  stateName : String
  instanceType : String
  privateIpAddress : Option String
  hibernationConfigured : Option Bool
  spotInstanceRequestId : Option String
  instanceLifecycle : String
  stateReasonCode : Option String
  tags : List (String × String)
deriving DecidableEq, Repr

/-- One record of a `DescribeInstanceStatus` response. -/
structure RawInstanceStatus where
  instanceId : String
  availabilityZone : String
deriving DecidableEq, Repr

/-- One record of a `DescribeSpotInstanceRequests` response. -/
structure RawSpotRequest where
  spotInstanceRequestId : String
  requestType : String
deriving DecidableEq, Repr

/-- The helper `getInstanceAZ`: first status record with a matching id wins,
otherwise the empty string. -/
def getInstanceAZ (statuses : List RawInstanceStatus) (id : String) : String :=
  match statuses with
  | [] => ""
  | s :: rest => if s.instanceId == id then s.availabilityZone else getInstanceAZ rest id

/-- The helper `getSpotRequestType`: first spot request with a matching id
wins, otherwise the empty string. -/
def getSpotRequestType (requests : List RawSpotRequest) (id : String) : String :=
  match requests with
  | [] => ""
  | r :: rest => if r.spotInstanceRequestId == id then r.requestType else getSpotRequestType rest id

/-- One iteration of the classification loop of `GetDeployedInstances`.
The Go loop reuses a single `instance` variable declared outside the loop,
so the iteration starts from the previous iteration's value `prev` and only
overwrites a field when the source record has the corresponding pointer
non-nil; the assignments appear in source order. -/
def classifyStep (region : String) (statuses : List RawInstanceStatus)
    (spotReqs : List RawSpotRequest) (prev : Instance) (inst : RawInstance) : Instance :=
  let i := prev
  let i := match inst.instanceId with
    | some id => { i with ID := id }
    | none => i
  let i := { i with Status := inst.stateName }
  let i := { i with Type' := inst.instanceType }
  let i := match inst.privateIpAddress with
    | some ip => { i with IP := ip }
    | none => i
  let i := match inst.hibernationConfigured with
    | some h => { i with Hibernation := h }
    | none => i
  let i := { i with Region := region }
  let i := match inst.instanceId with
    | some id => { i with AZ := getInstanceAZ statuses id }
    | none => i
  let i := { i with SpotInstanceType := "" }
  let i :=
    if inst.instanceLifecycle == "" then
      { i with Lifecycle := InstanceLifecycleOnDemand }
    else
      let i := { i with Lifecycle := inst.instanceLifecycle }
      if inst.instanceLifecycle == InstanceLifecycleTypeSpot then
        match inst.spotInstanceRequestId with
        | some sid => { i with SpotInstanceType := getSpotRequestType spotReqs sid }
        | none => i
      else i
  let i := match inst.stateReasonCode with
    | some c =>
      if c == "Client.UserInitiatedHibernate" && inst.stateName == InstanceStateNameStopped then
        { i with Status := "hibernated" }
      else i
    | none => i
  let i := { i with Name := "", Environment := "" }
  let i := inst.tags.foldl
    (fun acc tag =>
      if tag.1 == "Name" then { acc with Name := tag.2 }
      else if tag.1 == "Environment" then { acc with Environment := tag.2 }
      else acc) i
  i

/-- The reservation loop, threading the shared `instance` variable through
consecutive records. -/
def classifyLoop (region : String) (statuses : List RawInstanceStatus)
    (spotReqs : List RawSpotRequest) : Instance → List RawInstance → List Instance
  | _, [] => []
  | prev, inst :: rest =>
    let i := classifyStep region statuses spotReqs prev inst
    i :: classifyLoop region statuses spotReqs i rest

/-- Classification of a whole `DescribeInstances` result (a list of
reservations, each a list of records), starting from the Go zero value. -/
def classifyAll (region : String) (statuses : List RawInstanceStatus)
    (spotReqs : List RawSpotRequest) (reservations : List (List RawInstance)) : List Instance :=
  classifyLoop region statuses spotReqs Instance.zero reservations.flatten

/-- Lexicographic strict order on character lists, the semantics of Go's
`<` on strings (byte-wise lexicographic; identical character-wise here). -/
def charListLt : List Char → List Char → Bool
  | _, [] => false
  | [], _ :: _ => true
  | c :: cs, d :: ds => c < d || (c == d && charListLt cs ds)

/-- Go's `<` on strings. -/
def strLt (s t : String) : Bool :=
  charListLt s.toList t.toList

/-- Go's `<=` on strings, i.e. not strictly greater. -/
def strLe (s t : String) : Bool :=
  !(strLt t s)

/-- The comparison closure passed to `sort.SliceStable` in
`GetDeployedInstances`: environment first, then name, both ascending. -/
def instanceLess (a b : Instance) : Bool :=
  if strLt a.Environment b.Environment then true
  else if strLt b.Environment a.Environment then false
  else strLt a.Name b.Name

/-- Stable insertion of one element: `x` goes after every element strictly
less than it and before everything else, which is the placement a stable
sort gives an element relative to the already-sorted rest. -/
def insertStable (x : Instance) : List Instance → List Instance
  | [] => [x]
  | y :: ys => if instanceLess y x then y :: insertStable x ys else x :: y :: ys

/-- Go's `sort.SliceStable` with the `instanceLess` comparator.  A stable
sort under a strict weak order has a unique result, here computed by stable
insertion sort. -/
def sortSliceStable : List Instance → List Instance
  | [] => []
  | x :: xs => insertStable x (sortSliceStable xs)

/-- The three per-region describe endpoints `GetDeployedInstances` consults,
each modelled as an oracle from the request it is given to a response or an
error.  `describeInstances` receives the assembled filter list;
`describeInstanceStatus` receives its filter list (the Go call also sets
`IncludeAllInstances`, which has no observable effect in this model);
`describeSpotRequests` is called with an empty input. -/
structure RegionResponses where
  describeInstances : List Filter → Except GoError (List (List RawInstance))
  describeInstanceStatus : List Filter → Except GoError (List RawInstanceStatus)
  describeSpotRequests : Except GoError (List RawSpotRequest)

/-- The region query `GetDeployedInstances`: build the filters, run the
three describe calls, classify, stable-sort, and deliver one `RegionSummary`
to the channel.  On any describe error the function prints the error and
still delivers the summary built so far (region set, no instances); the
second component is the list of printed error lines. -/
def GetDeployedInstances (region : String) (tags : List (String × String))
    (action : String) (instanceIDs : List String) (resp : RegionResponses) :
    RegionSummary × List String :=
  match resp.describeInstances (buildFilters action tags instanceIDs) with
  | .error e => ({ Region := region, Instances := [] }, [errMessage e])
  | .ok reservations =>
    match resp.describeInstanceStatus [stateFilter action] with
    | .error e => ({ Region := region, Instances := [] }, [errMessage e])
    | .ok statuses =>
      match resp.describeSpotRequests with
      | .error e => ({ Region := region, Instances := [] }, [errMessage e])
      | .ok spotReqs =>
        ({ Region := region
           Instances := sortSliceStable (classifyAll region statuses spotReqs reservations) }, [])

/-- The `opt-in-status` filter `GetRegions` sends to `DescribeRegions`. -/
def regionOptInFilter : Filter :=
  { name := "opt-in-status", values := ["opt-in-not-required"] }

/-- The region-discovery function `GetRegions`: on a `DescribeRegions` error
it logs the code/message line and returns the nil slice (the empty list);
otherwise it returns the region names. -/
def GetRegions (svc : Filter → Except GoError (List String)) : List String :=
  match svc regionOptInFilter with
  | .error _ => []
  | .ok rs => rs

/-- The per-region fan-out of `getAccountSummary`: one `GetDeployedInstances`
query per region, one delivered `RegionSummary` per query. -/
def collectSummaries (regions : List String) (tags : List (String × String))
    (action : String) (instanceIDs : List String) (env : String → RegionResponses) :
    List RegionSummary :=
  regions.map (fun r => (GetDeployedInstances r tags action instanceIDs (env r)).1)

/-- The join loop of `getAccountSummary`: a summary is appended to the
account summary only when it holds at least one instance. -/
def joinNonEmpty (summaries : List RegionSummary) : AccountSummary :=
  summaries.filter (fun s => decide (0 < s.Instances.length))

/-- The command-layer collector `getAccountSummary`: an empty region list
triggers `GetRegions` discovery, then one query is dispatched per region and
the non-empty summaries are joined. -/
def getAccountSummary (regions : List String) (tags : List (String × String))
    (action : String) (instanceIDs : List String)
    (regionSvc : Filter → Except GoError (List String))
    (env : String → RegionResponses) : AccountSummary :=
  let regions := if regions.length == 0 then GetRegions regionSvc else regions
  joinNonEmpty (collectSummaries regions tags action instanceIDs env)

/-- The endpoints of the mutating EC2 calls the dispatcher issues. -/
inductive Endpoint where
  | startInstances
  | stopInstances
  | modifyInstanceAttribute
  | terminateInstances
deriving DecidableEq, Repr

/-- One mutating provider call as the adapter builds it: the endpoint, the
batched `InstanceIds` (start/stop/terminate), the scalar `InstanceId`
(modify), and the optional `DryRun`, `Hibernate` and `InstanceType` fields
(`none` models a nil pointer, i.e. the field not set). -/
structure EC2Call where
  endpoint : Endpoint
  instanceIds : List String
  instanceId : Option String
  dryRun : Option Bool
  hibernate : Option Bool
  instanceType : Option String
deriving DecidableEq, Repr

/-- One `types.InstanceStateChange` record returned by a start or stop call. -/
structure InstanceStateChange where
  instanceId : String
  previousState : String
  currentState : String
deriving DecidableEq, Repr

/-- The EC2 client, modelled as an oracle from a mutating call to its
response (the state-change list, ignored by modify and terminate) or error. -/
def EC2Service := EC2Call → Except GoError (List InstanceStateChange)

/-- The first (dry-run) input `StartStopInstance` builds for an action:
`StartInstancesInput` for start, `StopInstancesInput` for stop and
hibernate, with `DryRun` set to true and `Hibernate` set only for the
hibernate action. -/
def dryRunInput (action : String) (instanceIDs : List String) : EC2Call :=
  if action == InstanceStart then
    { endpoint := .startInstances, instanceIds := instanceIDs, instanceId := none
      dryRun := some true, hibernate := none, instanceType := none }
  else
    { endpoint := .stopInstances, instanceIds := instanceIDs, instanceId := none
      dryRun := some true
      hibernate := if action == InstanceHibernate then some true else none
      instanceType := none }

/-- The committed input: identical to the dry-run input except that
`DryRun` is overwritten with false. -/
def commitInput (action : String) (instanceIDs : List String) : EC2Call :=
  { dryRunInput action instanceIDs with dryRun := some false }

/-- The shared probe-then-commit shape of the mutating adapter functions:
issue the call with `DryRun` true; only when it fails with the
`DryRunOperation` code, re-issue the identical call with `DryRun` false and
take its outcome; any other first error is the outcome.  The second
component is the trace of issued calls. -/
def dryRunThenCommit (svc : EC2Service) (input : EC2Call) :
    Except GoError (List InstanceStateChange) × List EC2Call :=
  match svc input with
  | .ok result => (.ok result, [input])
  | .error err =>
    if errIsCode err DryRunOperation then
      let input2 := { input with dryRun := some false }
      (svc input2, [input, input2])
    else (.error err, [input])

/-- The batched `StartStopInstance` from the adapter package (the `region`
argument only selects the client configuration).  Start, stop and hibernate
all run the dry-run-then-commit protocol on their input; any other action
returns the `invalid action` error without issuing a call. -/
def StartStopInstance (svc : EC2Service) (region : String) (action : String)
    (instanceIDs : List String) :
    Except GoError (List InstanceStateChange) × List EC2Call :=
  if action == InstanceStart then
    dryRunThenCommit svc (dryRunInput action instanceIDs)
  else if action == InstanceStop || action == InstanceHibernate then
    dryRunThenCommit svc (dryRunInput action instanceIDs)
  else
    (.error (.other "invalid action"), [])

/-- The `ModifyInstanceAttributeInput` value `ModifyInstanceType` builds:
a scalar instance id, the target type, and the given `DryRun` flag. -/
def modifyInput (instanceType instanceID : String) (dry : Bool) : EC2Call :=
  { endpoint := .modifyInstanceAttribute, instanceIds := [], instanceId := some instanceID
    dryRun := some dry, hibernate := none, instanceType := some instanceType }

/-- `ModifyInstanceType` from the adapter package: dry-run-then-commit on a
single instance's type change, returning only the error (the response body
is discarded). -/
def ModifyInstanceType (svc : EC2Service) (region : String)
    (instanceType : String) (instanceID : String) : Option GoError × List EC2Call :=
  let r := dryRunThenCommit svc (modifyInput instanceType instanceID true)
  ((match r.1 with | .ok _ => none | .error e => some e), r.2)

/-- The `TerminateInstancesInput` value `TerminateInstances` builds: only
the instance-id batch is set; `DryRun` is never populated. -/
def terminateInput (instances : List String) : EC2Call :=
  { endpoint := .terminateInstances, instanceIds := instances, instanceId := none
    dryRun := none, hibernate := none, instanceType := none }

/-- `TerminateInstances` from the adapter package: one direct call on the
whole batch, no dry-run probe, returning only the error. -/
def TerminateInstances (svc : EC2Service) (region : String)
    (instances : List String) : Option GoError × List EC2Call :=
  ((match svc (terminateInput instances) with | .ok _ => none | .error e => some e),
   [terminateInput instances])

/-- The confirmation gate `AccountSummary.Prompt`: with no matching region
summaries it prints the no-instances label and calls `os.Exit(0)` (modelled
as `none` with no prompt shown); otherwise it renders the snapshot, reads
one token of operator input, and returns the snapshot unchanged when the
input is exactly `Y` and the empty summary otherwise.  The Bool records
whether the operator was prompted (input was read). -/
def AccountSummary.Prompt (u : AccountSummary) (action : String) (input : String) :
    Option AccountSummary × Bool :=
  if u.length == 0 then
    (none, false)
  else if input == "Y" then
    (some u, true)
  else
    (some ([] : AccountSummary), true)

/-- Character class `[a-z|0-9]` of the instance-id pattern (a literal pipe
is part of the class). -/
def isIdChar (c : Char) : Bool :=
  ('a' ≤ c && c ≤ 'z') || c == '|' || ('0' ≤ c && c ≤ '9')

/-- Whether the first `n` characters exist and are all in the class. -/
def headRun : List Char → Nat → Bool
  | _, 0 => true
  | [], _ + 1 => false
  | c :: cs, n + 1 => isIdChar c && headRun cs n

/-- Whether `n` consecutive class characters occur anywhere in the list
(the unanchored search RE2 performs for an unanchored alternative). -/
def anyRun (n : Nat) : List Char → Bool
  | [] => headRun [] n
  | c :: cs => headRun (c :: cs) n || anyRun n cs

/-- Go `regexp.MatchString` with the source pattern
`^i-[a-z|0-9]{8}|[a-z|0-9]{17}`: the alternation splits at the top level, so
the first alternative is anchored at the start (`i-` then eight class
characters) while the second matches seventeen class characters anywhere. -/
def matchInstanceIdPattern (s : String) : Bool :=
  (match s.toList with
   | 'i' :: '-' :: rest => headRun rest 8
   | _ => false)
  || anyRun 17 s.toList

/-- `validateInstanceArgs` from the command layer: with no arguments and no
`--regions` flag it demands an instance id; otherwise each argument must
match the pattern and have length 10 or 19, and the first failing argument
is reported. -/
def validateInstanceArgs (regions : List String) (args : List String) :
    Except String Unit :=
  if args.length < 1 && regions.length == 0 then
    .error "at least one instance ID is required"
  else
    match args.find? (fun arg =>
        !(matchInstanceIdPattern arg && (arg.length == 10 || arg.length == 19))) with
    | some arg => .error (arg ++ " is not a valid instance id")
    | none => .ok ()

/-- Membership test for one sort key (environment, name), used to state
stability of the sort as preservation of each key's subsequence. -/
def keyIs (e n : String) (x : Instance) : Bool :=
  (x.Environment == e) && (x.Name == n)

/-- Sample state change returned by the mock client on a committed call. -/
def sampleChange : InstanceStateChange :=
  { instanceId := "i-0abc", previousState := "stopped", currentState := "pending" }

/-- Mock EC2 client that fails every dry-run call with `DryRunOperation`
and answers every committed call with one state change. -/
def svcDryThenOk : EC2Service := fun c =>
  if c.dryRun == some true then
    .error (.api DryRunOperation "Request would have succeeded, but DryRun flag is set.")
  else .ok [sampleChange]

/-- Mock EC2 client that fails every call with the `DryRunOperation` code. -/
def svcAlwaysDryRunErr : EC2Service := fun _ =>
  .error (.api DryRunOperation "Request would have succeeded, but DryRun flag is set.")

/-- Mock `DescribeRegions` endpoint that always errors. -/
def failingRegionSvc : Filter → Except GoError (List String) := fun _ =>
  .error (.api "RequestExpired" "request has expired")

/-- Mock region whose describe calls succeed with no data. -/
def emptyResponses : RegionResponses :=
  { describeInstances := fun _ => .ok []
    describeInstanceStatus := fun _ => .ok []
    describeSpotRequests := .ok [] }

/-- Mock region whose `DescribeInstances` call errors. -/
def errorResponses : RegionResponses :=
  { describeInstances := fun _ => .error (.other "operation error")
    describeInstanceStatus := fun _ => .ok []
    describeSpotRequests := .ok [] }

/-- Raw record with every optional field populated. -/
def rawAlpha : RawInstance :=
  { instanceId := some "i-0aaaaaaaaaaaaaaaa", stateName := InstanceStateNameRunning,
    instanceType := "t3.micro", privateIpAddress := some "10.0.0.1",
    hibernationConfigured := some true, spotInstanceRequestId := none,
    instanceLifecycle := "", stateReasonCode := none,
    tags := [("Name", "alpha"), ("Environment", "dev")] }

/-- Raw record whose ip-address and hibernation pointers are nil. -/
def rawBeta : RawInstance :=
  { instanceId := some "i-0bbbbbbbbbbbbbbbb", stateName := InstanceStateNameRunning,
    instanceType := "t3.micro", privateIpAddress := none,
    hibernationConfigured := none, spotInstanceRequestId := none,
    instanceLifecycle := "", stateReasonCode := none, tags := [] }

/-- Mock region that returns one reservation holding `rawAlpha`. -/
def alphaResponses : RegionResponses :=
  { describeInstances := fun _ => .ok [[rawAlpha]]
    describeInstanceStatus := fun _ => .ok []
    describeSpotRequests := .ok [] }

/-- Mock account: `eu-west-1` errors, `us-east-1` has one instance, every
other region is empty. -/
def sampleEnv : String → RegionResponses := fun r =>
  if r == "eu-west-1" then errorResponses
  else if r == "us-east-1" then alphaResponses
  else emptyResponses

/-- A concrete classified instance for the prompt fixtures. -/
def sampleInstance : Instance :=
  { Instance.zero with
    Name := "alpha"
    ID := "i-0aaaaaaaaaaaaaaaa"
    Status := InstanceStateNameRunning
    Region := "us-east-1" }

/-- A one-region, one-instance account summary. -/
def sampleSummary : AccountSummary :=
  [{ Region := "us-east-1", Instances := [sampleInstance] }]

end Ec2ctl

namespace Ec2ctl

/-! Order lemmas for the lexicographic string comparison and for the
`sort.SliceStable` comparator. -/

lemma charListLt_asymm : ∀ (a b : List Char), charListLt a b = true → charListLt b a = false := by
  intro a
  induction a with
  | nil =>
    intro b h
    cases b with
    | nil => simp [charListLt] at h
    | cons d ds => simp [charListLt]
  | cons c cs ih =>
    intro b h
    cases b with
    | nil => simp [charListLt] at h
    | cons d ds =>
      simp only [charListLt, Bool.or_eq_true, Bool.and_eq_true, beq_iff_eq,
        decide_eq_true_eq] at h
      simp only [charListLt, Bool.or_eq_false_iff, Bool.and_eq_false_iff,
        decide_eq_false_iff_not, beq_eq_false_iff_ne]
      rcases h with h | ⟨rfl, h2⟩
      · exact ⟨lt_asymm h, Or.inl (ne_of_gt h)⟩
      · exact ⟨lt_irrefl _, Or.inr (ih ds h2)⟩

lemma charListLt_antisymm : ∀ (a b : List Char),
    charListLt a b = false → charListLt b a = false → a = b := by
  intro a
  induction a with
  | nil =>
    intro b h1 h2
    cases b with
    | nil => rfl
    | cons d ds => simp [charListLt] at h1
  | cons c cs ih =>
    intro b h1 h2
    cases b with
    | nil => simp [charListLt] at h2
    | cons d ds =>
      simp only [charListLt, Bool.or_eq_false_iff, Bool.and_eq_false_iff,
        decide_eq_false_iff_not, beq_eq_false_iff_ne] at h1 h2
      obtain ⟨hcd, h1'⟩ := h1
      obtain ⟨hdc, h2'⟩ := h2
      have hesk : c = d := le_antisymm (not_lt.mp hdc) (not_lt.mp hcd)
      subst hesk
      have h1'' : charListLt cs ds = false := by
        rcases h1' with h | h
        · exact absurd rfl h
        · exact h
      have h2'' : charListLt ds cs = false := by
        rcases h2' with h | h
        · exact absurd rfl h
        · exact h
      rw [ih ds h1'' h2'']

lemma charListLt_not_lt_trans : ∀ (a b c : List Char),
    charListLt b a = false → charListLt c b = false → charListLt c a = false := by
  intro a
  induction a with
  | nil =>
    intro b c _ _
    cases c <;> simp [charListLt]
  | cons x xs ih =>
    intro b c h1 h2
    cases b with
    | nil => simp [charListLt] at h1
    | cons y ys =>
      cases c with
      | nil => simp [charListLt] at h2
      | cons z zs =>
        simp only [charListLt, Bool.or_eq_false_iff, Bool.and_eq_false_iff,
          decide_eq_false_iff_not, beq_eq_false_iff_ne] at h1 h2 ⊢
        obtain ⟨hyx, h1'⟩ := h1
        obtain ⟨hzy, h2'⟩ := h2
        have hxy : x ≤ y := not_lt.mp hyx
        have hyz : y ≤ z := not_lt.mp hzy
        refine ⟨not_lt.mpr (le_trans hxy hyz), ?_⟩
        by_cases hzx : z = x
        · subst hzx
          have hyx' : y = z := le_antisymm hyz hxy
          subst hyx'
          have h1'' : charListLt ys xs = false := by
            rcases h1' with h | h
            · exact absurd rfl h
            · exact h
          have h2'' : charListLt zs ys = false := by
            rcases h2' with h | h
            · exact absurd rfl h
            · exact h
          exact Or.inr (ih ys zs h1'' h2'')
        · exact Or.inl hzx

lemma charListLt_irrefl (a : List Char) : charListLt a a = false := by
  cases h : charListLt a a
  · rfl
  · have := charListLt_asymm a a h
    rw [this] at h
    exact h.symm

lemma strLt_asymm (s t : String) (h : strLt s t = true) : strLt t s = false :=
  charListLt_asymm _ _ h

lemma strLt_irrefl (s : String) : strLt s s = false :=
  charListLt_irrefl _

lemma strLt_not_lt_trans (s t u : String) (h1 : strLt t s = false) (h2 : strLt u t = false) :
    strLt u s = false :=
  charListLt_not_lt_trans _ _ _ h1 h2

lemma strLt_antisymm (s t : String) (h1 : strLt s t = false) (h2 : strLt t s = false) : s = t := by
  have h := charListLt_antisymm s.toList t.toList h1 h2
  cases s
  cases t
  simp only [String.toList] at h
  exact congrArg String.mk h

lemma instanceLess_false_iff (a b : Instance) :
    instanceLess b a = false ↔
      (strLt a.Environment b.Environment = true ∨
       (a.Environment = b.Environment ∧ strLe a.Name b.Name = true)) := by
  by_cases h1 : strLt b.Environment a.Environment = true
  · simp only [instanceLess, h1, if_true]
    constructor
    · intro h; exact absurd h (by simp)
    · rintro (h | ⟨heq, _⟩)
      · have := strLt_asymm _ _ h
        rw [this] at h1
        exact absurd h1 (by simp)
      · rw [heq] at h1
        rw [strLt_irrefl] at h1
        exact absurd h1 (by simp)
  · have h1' : strLt b.Environment a.Environment = false := by
      cases h : strLt b.Environment a.Environment
      · rfl
      · exact absurd h h1
    by_cases h2 : strLt a.Environment b.Environment = true
    · simp [instanceLess, h1', h2]
    · have h2' : strLt a.Environment b.Environment = false := by
        cases h : strLt a.Environment b.Environment
        · rfl
        · exact absurd h h2
      have heq : a.Environment = b.Environment := strLt_antisymm _ _ h2' h1'
      simp [instanceLess, h1', h2', strLe, heq, strLt_irrefl, Bool.not_eq_true']

lemma instanceLess_asymm (a b : Instance) (h : instanceLess a b = true) :
    instanceLess b a = false := by
  by_cases h1 : strLt a.Environment b.Environment = true
  · simp [instanceLess, strLt_asymm _ _ h1, h1]
  · have h1' : strLt a.Environment b.Environment = false := by
      cases hx : strLt a.Environment b.Environment
      · rfl
      · exact absurd hx h1
    by_cases h2 : strLt b.Environment a.Environment = true
    · rw [instanceLess, h1', h2] at h
      simp at h
    · have h2' : strLt b.Environment a.Environment = false := by
        cases hx : strLt b.Environment a.Environment
        · rfl
        · exact absurd hx h2
      rw [instanceLess] at h
      simp only [h1', h2', Bool.false_eq_true, if_false] at h
      simp only [instanceLess, h1', h2', Bool.false_eq_true, if_false]
      exact strLt_asymm _ _ h

lemma instanceLess_not_lt_trans (a b c : Instance) (h1 : instanceLess b a = false)
    (h2 : instanceLess c b = false) : instanceLess c a = false := by
  rw [instanceLess_false_iff] at h1 h2 ⊢
  rcases h1 with h1 | ⟨he1, hn1⟩
  · rcases h2 with h2 | ⟨he2, hn2⟩
    · left
      cases hac : strLt a.Environment c.Environment
      · exfalso
        have hcb := strLt_asymm _ _ h2
        have hab := strLt_not_lt_trans _ _ _ hcb hac
        rw [hab] at h1
        exact absurd h1 (by simp)
      · rfl
    · left
      rw [← he2]
      exact h1
  · rcases h2 with h2 | ⟨he2, hn2⟩
    · left
      rw [he1]
      exact h2
    · right
      refine ⟨he1.trans he2, ?_⟩
      simp only [strLe, Bool.not_eq_true'] at hn1 hn2 ⊢
      exact strLt_not_lt_trans _ _ _ hn1 hn2

lemma instanceLess_false_of_sameKey (a b : Instance) (he : a.Environment = b.Environment)
    (hn : a.Name = b.Name) : instanceLess a b = false := by
  rw [instanceLess, he, hn, strLt_irrefl]
  simp [strLt_irrefl]

/-! Lemmas about the stable insertion sort. -/

lemma mem_insertStable {x z : Instance} : ∀ {l : List Instance},
    z ∈ insertStable x l → z = x ∨ z ∈ l := by
  intro l
  induction l with
  | nil =>
    intro h
    simp [insertStable] at h
    exact Or.inl h
  | cons y ys ih =>
    intro h
    simp only [insertStable] at h
    split at h
    · rcases List.mem_cons.mp h with rfl | h'
      · exact Or.inr (List.mem_cons_self _ _)
      · rcases ih h' with h'' | h''
        · exact Or.inl h''
        · exact Or.inr (List.mem_cons_of_mem _ h'')
    · rcases List.mem_cons.mp h with rfl | h'
      · exact Or.inl rfl
      · exact Or.inr h'

lemma pairwise_insertStable (x : Instance) : ∀ (l : List Instance),
    l.Pairwise (fun a b => instanceLess b a = false) →
    (insertStable x l).Pairwise (fun a b => instanceLess b a = false) := by
  intro l
  induction l with
  | nil =>
    intro _
    simp [insertStable]
  | cons y ys ih =>
    intro h
    rw [List.pairwise_cons] at h
    obtain ⟨hy, hys⟩ := h
    simp only [insertStable]
    split
    case isTrue hyx =>
      rw [List.pairwise_cons]
      refine ⟨?_, ih hys⟩
      intro z hz
      rcases mem_insertStable hz with rfl | hz'
      · exact instanceLess_asymm y z hyx
      · exact hy z hz'
    case isFalse hyx =>
      have hyx' : instanceLess y x = false := Bool.eq_false_iff.mpr hyx
      rw [List.pairwise_cons]
      constructor
      · intro z hz
        rcases List.mem_cons.mp hz with rfl | hz'
        · exact hyx'
        · exact instanceLess_not_lt_trans x y z hyx' (hy z hz')
      · rw [List.pairwise_cons]
        exact ⟨hy, hys⟩

lemma pairwise_sortSliceStable : ∀ l : List Instance,
    (sortSliceStable l).Pairwise (fun a b => instanceLess b a = false) := by
  intro l
  induction l with
  | nil => simp [sortSliceStable]
  | cons x xs ih => exact pairwise_insertStable x _ ih

lemma filter_insertStable_of_key (e n : String) (x : Instance)
    (hx : keyIs e n x = true) : ∀ l : List Instance,
    (insertStable x l).filter (keyIs e n) = x :: l.filter (keyIs e n) := by
  intro l
  induction l with
  | nil => simp [insertStable, List.filter, hx]
  | cons y ys ih =>
    simp only [insertStable]
    split
    case isTrue hyx =>
      have hy : keyIs e n y = false := by
        cases hk : keyIs e n y
        · rfl
        · exfalso
          simp only [keyIs, Bool.and_eq_true, beq_iff_eq] at hx hk
          have hzero := instanceLess_false_of_sameKey y x
            (by rw [hk.1, hx.1]) (by rw [hk.2, hx.2])
          rw [hzero] at hyx
          exact absurd hyx (by simp)
      simp [List.filter_cons, hy, ih]
    case isFalse hyx =>
      simp [List.filter_cons, hx]

lemma filter_insertStable_of_not_key (p : Instance → Bool) (x : Instance)
    (hx : p x = false) : ∀ l : List Instance,
    (insertStable x l).filter p = l.filter p := by
  intro l
  induction l with
  | nil => simp [insertStable, List.filter, hx]
  | cons y ys ih =>
    simp only [insertStable]
    split
    · simp [List.filter_cons, ih]
    · simp [List.filter_cons, hx]

lemma filter_sortSliceStable (e n : String) : ∀ l : List Instance,
    (sortSliceStable l).filter (keyIs e n) = l.filter (keyIs e n) := by
  intro l
  induction l with
  | nil => rfl
  | cons x xs ih =>
    simp only [sortSliceStable]
    cases hx : keyIs e n x
    · rw [filter_insertStable_of_not_key _ x hx, ih]
      simp [List.filter_cons, hx]
    · rw [filter_insertStable_of_key e n x hx, ih]
      simp [List.filter_cons, hx]

/-! Lemmas about the fan-out join. -/

lemma joinNonEmpty_filter_out (tags : List (String × String)) (action : String)
    (ids : List String) (env : String → RegionResponses) (b : String)
    (hb : (GetDeployedInstances b tags action ids (env b)).1.Instances = []) :
    ∀ regions : List String,
      joinNonEmpty (collectSummaries regions tags action ids env)
        = joinNonEmpty
            (collectSummaries (regions.filter (fun r => r != b)) tags action ids env) := by
  intro regions
  induction regions with
  | nil => rfl
  | cons r rest ih =>
    by_cases hr : r = b
    · subst hr
      rw [List.filter_cons, if_neg (by simp)]
      simp only [collectSummaries, List.map_cons, joinNonEmpty, List.filter_cons, hb,
        List.length_nil]
      simpa [collectSummaries, joinNonEmpty] using ih
    · have hrb : (r != b) = true := by simp [hr]
      rw [List.filter_cons, if_pos hrb]
      simp only [collectSummaries, joinNonEmpty] at ih
      simp only [collectSummaries, List.map_cons, joinNonEmpty, List.filter_cons]
      rw [ih]

end Ec2ctl

namespace Ec2ctl

/-- C1: for start, stop and hibernate, `StartStopInstance` issues a first
call with the dry-run flag set; when that call fails with the
`DryRunOperation` code, exactly one additional call is issued, identical
except that the dry-run flag is cleared, and its per-instance state-change
outcome is returned; when the first call fails with any other error, no
additional call is issued and that error is returned. -/
theorem StartStopInstance_dry_run_protocol (svc : EC2Service) (region action : String)
    (instanceIDs : List String) (e : GoError)
    (hact : action = InstanceStart ∨ action = InstanceStop ∨ action = InstanceHibernate)
    (hfail : svc (dryRunInput action instanceIDs) = .error e) :
    ((dryRunInput action instanceIDs).dryRun = some true
      ∧ (dryRunInput action instanceIDs).instanceIds = instanceIDs
      ∧ commitInput action instanceIDs
          = { dryRunInput action instanceIDs with dryRun := some false })
    ∧ (errIsCode e DryRunOperation = true →
        StartStopInstance svc region action instanceIDs
          = (svc (commitInput action instanceIDs),
             [dryRunInput action instanceIDs, commitInput action instanceIDs]))
    ∧ (errIsCode e DryRunOperation = false →
        StartStopInstance svc region action instanceIDs
          = (.error e, [dryRunInput action instanceIDs])) := by
  refine ⟨⟨?_, ?_, rfl⟩, ?_, ?_⟩
  · rcases hact with rfl | rfl | rfl <;> rfl
  · rcases hact with rfl | rfl | rfl <;> rfl
  · intro h
    rcases hact with rfl | rfl | rfl <;>
      simp [StartStopInstance, dryRunThenCommit, hfail, h, commitInput,
        show (InstanceStop == InstanceStart) = false from rfl,
        show (InstanceHibernate == InstanceStart) = false from rfl,
        show (InstanceStop == InstanceStop) = true from rfl,
        show (InstanceHibernate == InstanceHibernate) = true from rfl]
  · intro h
    rcases hact with rfl | rfl | rfl <;>
      simp [StartStopInstance, dryRunThenCommit, hfail, h, commitInput,
        show (InstanceStop == InstanceStart) = false from rfl,
        show (InstanceHibernate == InstanceStart) = false from rfl,
        show (InstanceStop == InstanceStop) = true from rfl,
        show (InstanceHibernate == InstanceHibernate) = true from rfl]

/-- C1 witness: the protocol applied to a mock client whose dry-run start
call fails with `DryRunOperation`. -/
theorem StartStopInstance_dry_run_protocol_check :
    StartStopInstance svcDryThenOk "us-east-1" InstanceStart ["i-0aaaaaaaaaaaaaaaa"]
      = (svcDryThenOk (commitInput InstanceStart ["i-0aaaaaaaaaaaaaaaa"]),
         [dryRunInput InstanceStart ["i-0aaaaaaaaaaaaaaaa"],
          commitInput InstanceStart ["i-0aaaaaaaaaaaaaaaa"]]) :=
  (StartStopInstance_dry_run_protocol svcDryThenOk "us-east-1" InstanceStart
      ["i-0aaaaaaaaaaaaaaaa"]
      (.api DryRunOperation "Request would have succeeded, but DryRun flag is set.")
      (Or.inl rfl) rfl).2.1 rfl

/-- C2: when one region's describe call errors, that region contributes an
empty `RegionSummary` plus a printed log line, the join still receives one
summary per dispatched region, the other regions' results are returned
unchanged, and no empty summary reaches the `AccountSummary`. -/
theorem getAccountSummary_region_failure (regions : List String)
    (tags : List (String × String)) (action : String) (ids : List String)
    (regionSvc : Filter → Except GoError (List String)) (env : String → RegionResponses)
    (b : String) (e : GoError) (hreg : regions ≠ [])
    (hb : (env b).describeInstances (buildFilters action tags ids) = .error e) :
    GetDeployedInstances b tags action ids (env b)
      = ({ Region := b, Instances := [] }, [errMessage e])
    ∧ (collectSummaries regions tags action ids env).length = regions.length
    ∧ getAccountSummary regions tags action ids regionSvc env
        = joinNonEmpty (collectSummaries (regions.filter (fun r => r != b)) tags action ids env)
    ∧ (∀ s ∈ getAccountSummary regions tags action ids regionSvc env, s.Instances ≠ []) := by
  have hsum : GetDeployedInstances b tags action ids (env b)
      = ({ Region := b, Instances := [] }, [errMessage e]) := by
    simp [GetDeployedInstances, hb]
  have hga : getAccountSummary regions tags action ids regionSvc env
      = joinNonEmpty (collectSummaries regions tags action ids env) := by
    obtain ⟨r, rest, rfl⟩ := List.exists_cons_of_ne_nil hreg
    rfl
  refine ⟨hsum, by simp [collectSummaries], ?_, ?_⟩
  · rw [hga]
    exact joinNonEmpty_filter_out tags action ids env b (by rw [hsum]) regions
  · intro s hs
    rw [hga] at hs
    simp only [joinNonEmpty, List.mem_filter, decide_eq_true_eq] at hs
    intro hnil
    rw [hnil] at hs
    simp at hs

/-- C2 witness: a three-region account where `eu-west-1` errors; the
collection equals the collection over the two healthy regions. -/
theorem getAccountSummary_region_failure_check :
    getAccountSummary ["us-east-1", "eu-west-1", "ap-southeast-1"] [] InstanceStatus []
        failingRegionSvc sampleEnv
      = joinNonEmpty (collectSummaries
          ((["us-east-1", "eu-west-1", "ap-southeast-1"] : List String).filter
            (fun r => r != "eu-west-1")) [] InstanceStatus [] sampleEnv) :=
  (getAccountSummary_region_failure ["us-east-1", "eu-west-1", "ap-southeast-1"] []
      InstanceStatus [] failingRegionSvc sampleEnv "eu-west-1" (.other "operation error")
      (by simp) rfl).2.2.1

/-- C3 counterexample: the hibernate action does not map to the
running-only state filter; it falls into the default branch with the five
status-eligible states. -/
theorem stateFilter_hibernate_not_running_only :
    stateFilter InstanceHibernate
      ≠ { name := "instance-state-name", values := [InstanceStateNameRunning] }
    ∧ stateFilter InstanceHibernate
      = { name := "instance-state-name", values := statusEligibleStates } :=
  ⟨by decide, rfl⟩

/-- C3 amended: the state filter maps start to stopped only and stop to
running only, while hibernate, status, and any other action (including the
empty action) get the five-state default set. -/
theorem stateFilter_action_mapping :
    stateFilter InstanceStart
      = { name := "instance-state-name", values := [InstanceStateNameStopped] }
    ∧ stateFilter InstanceStop
      = { name := "instance-state-name", values := [InstanceStateNameRunning] }
    ∧ stateFilter InstanceHibernate
      = { name := "instance-state-name", values := statusEligibleStates }
    ∧ stateFilter InstanceStatus
      = { name := "instance-state-name", values := statusEligibleStates }
    ∧ stateFilter "" = { name := "instance-state-name", values := statusEligibleStates }
    ∧ statusEligibleStates
      = [InstanceStateNamePending, InstanceStateNameRunning, InstanceStateNameShuttingDown,
         InstanceStateNameStopping, InstanceStateNameStopped] :=
  ⟨rfl, rfl, rfl, rfl, rfl, rfl⟩

/-- C4 counterexample: `TerminateInstances` issues exactly one call whose
dry-run field is never set, even against a client that would answer a probe
with `DryRunOperation`; no second call is issued. -/
theorem TerminateInstances_no_dry_run_probe :
    (TerminateInstances svcAlwaysDryRunErr "us-east-1" ["i-0aaaaaaaaaaaaaaaa"]).2
      = [terminateInput ["i-0aaaaaaaaaaaaaaaa"]]
    ∧ (terminateInput ["i-0aaaaaaaaaaaaaaaa"]).dryRun = none
    ∧ (TerminateInstances svcAlwaysDryRunErr "us-east-1" ["i-0aaaaaaaaaaaaaaaa"]).2.length
      = 1 :=
  ⟨rfl, rfl, rfl⟩

/-- C4 amended: `ModifyInstanceType` follows the dry-run-then-commit
protocol on a single instance's type change, while `TerminateInstances`
issues exactly one direct call on the whole batch with no dry-run flag. -/
theorem ModifyInstanceType_probe_TerminateInstances_direct (svc : EC2Service)
    (region t id : String) (instances : List String) (e : GoError)
    (hfail : svc (modifyInput t id true) = .error e) :
    ((modifyInput t id true).dryRun = some true
      ∧ (modifyInput t id true).instanceId = some id)
    ∧ (errIsCode e DryRunOperation = true →
        ModifyInstanceType svc region t id
          = ((match svc (modifyInput t id false) with
              | .ok _ => none
              | .error e2 => some e2),
             [modifyInput t id true, modifyInput t id false]))
    ∧ (errIsCode e DryRunOperation = false →
        ModifyInstanceType svc region t id = (some e, [modifyInput t id true]))
    ∧ ((TerminateInstances svc region instances).2 = [terminateInput instances]
        ∧ (terminateInput instances).dryRun = none) := by
  refine ⟨⟨rfl, rfl⟩, ?_, ?_, rfl, rfl⟩
  · intro h
    simp [ModifyInstanceType, dryRunThenCommit, hfail, h,
      show ({ modifyInput t id true with dryRun := some false } : EC2Call)
        = modifyInput t id false from rfl]
  · intro h
    simp [ModifyInstanceType, dryRunThenCommit, hfail, h,
      show ({ modifyInput t id true with dryRun := some false } : EC2Call)
        = modifyInput t id false from rfl]

/-- C4 witness: the modify protocol applied to a mock client whose dry-run
call fails with `DryRunOperation`. -/
theorem ModifyInstanceType_probe_TerminateInstances_direct_check :
    ModifyInstanceType svcDryThenOk "us-east-1" "r6g.xlarge" "i-0aaaaaaaaaaaaaaaa"
      = ((match svcDryThenOk (modifyInput "r6g.xlarge" "i-0aaaaaaaaaaaaaaaa" false) with
          | .ok _ => none
          | .error e2 => some e2),
         [modifyInput "r6g.xlarge" "i-0aaaaaaaaaaaaaaaa" true,
          modifyInput "r6g.xlarge" "i-0aaaaaaaaaaaaaaaa" false]) :=
  (ModifyInstanceType_probe_TerminateInstances_direct svcDryThenOk "us-east-1"
      "r6g.xlarge" "i-0aaaaaaaaaaaaaaaa" []
      (.api DryRunOperation "Request would have succeeded, but DryRun flag is set.")
      rfl).2.1 rfl

/-- C5 counterexample: a region-discovery error is not fatal; `GetRegions`
returns the empty list, indistinguishable from an account with zero
regions, and the command completes with an empty `AccountSummary`. -/
theorem GetRegions_discovery_error_not_fatal :
    GetRegions failingRegionSvc = []
    ∧ GetRegions failingRegionSvc = GetRegions (fun _ => .ok [])
    ∧ getAccountSummary [] [] InstanceStatus [] failingRegionSvc (fun _ => emptyResponses)
      = [] :=
  ⟨rfl, rfl, rfl⟩

/-- C5 amended: when no explicit region list is supplied and the discovery
call errors, `GetRegions` logs and returns the empty region list and the
command proceeds, returning an empty `AccountSummary`, exactly as it would
for an account with zero regions. -/
theorem GetRegions_discovery_error_returns_empty
    (svc : Filter → Except GoError (List String)) (e : GoError)
    (h : svc regionOptInFilter = .error e) (tags : List (String × String))
    (action : String) (ids : List String) (env : String → RegionResponses) :
    GetRegions svc = []
    ∧ getAccountSummary [] tags action ids svc env = []
    ∧ getAccountSummary [] tags action ids svc env
        = getAccountSummary [] tags action ids (fun _ => .ok []) env := by
  refine ⟨?_, ?_, ?_⟩
  · simp [GetRegions, h]
  · simp [getAccountSummary, GetRegions, h, collectSummaries, joinNonEmpty]
  · simp [getAccountSummary, GetRegions, h, collectSummaries, joinNonEmpty]

/-- C5 witness: the amended behaviour at a concrete erroring discovery
endpoint. -/
theorem GetRegions_discovery_error_returns_empty_check :
    GetRegions failingRegionSvc = []
    ∧ getAccountSummary [] [] InstanceStart [] failingRegionSvc (fun _ => emptyResponses) = []
    ∧ getAccountSummary [] [] InstanceStart [] failingRegionSvc (fun _ => emptyResponses)
        = getAccountSummary [] [] InstanceStart [] (fun _ => .ok [])
            (fun _ => emptyResponses) :=
  GetRegions_discovery_error_returns_empty failingRegionSvc
    (.api "RequestExpired" "request has expired") rfl [] InstanceStart []
    (fun _ => emptyResponses)

/-- C6: every summary a region query produces is sorted so that adjacent
instances ascend by environment and then by name, the sort preserves the
provider's insertion order within each (environment, name) key (stability),
and in the successful case the summary is exactly the stable sort of the
classified records. -/
theorem regionSummary_sorted_and_stable (region : String) (tags : List (String × String))
    (action : String) (instanceIDs : List String) (resp : RegionResponses) :
    List.Chain' (fun a b => strLt a.Environment b.Environment = true ∨
        (a.Environment = b.Environment ∧ strLe a.Name b.Name = true))
      (GetDeployedInstances region tags action instanceIDs resp).1.Instances
    ∧ (∀ (e n : String) (l : List Instance),
        (sortSliceStable l).filter (keyIs e n) = l.filter (keyIs e n))
    ∧ (∀ (reservations : List (List RawInstance)) (statuses : List RawInstanceStatus)
          (spotReqs : List RawSpotRequest),
        resp.describeInstances (buildFilters action tags instanceIDs) = .ok reservations →
        resp.describeInstanceStatus [stateFilter action] = .ok statuses →
        resp.describeSpotRequests = .ok spotReqs →
        (GetDeployedInstances region tags action instanceIDs resp).1.Instances
          = sortSliceStable (classifyAll region statuses spotReqs reservations)) := by
  refine ⟨?_, fun e n l => filter_sortSliceStable e n l, ?_⟩
  · cases hdi : resp.describeInstances (buildFilters action tags instanceIDs) with
    | error e => simp [GetDeployedInstances, hdi]
    | ok reservations =>
      cases hds : resp.describeInstanceStatus [stateFilter action] with
      | error e => simp [GetDeployedInstances, hdi, hds]
      | ok statuses =>
        cases hsp : resp.describeSpotRequests with
        | error e => simp [GetDeployedInstances, hdi, hds, hsp]
        | ok spotReqs =>
          simp only [GetDeployedInstances, hdi, hds, hsp]
          exact ((pairwise_sortSliceStable _).imp
            (fun h => (instanceLess_false_iff _ _).mp h)).chain'
  · intro reservations statuses spotReqs h1 h2 h3
    simp [GetDeployedInstances, h1, h2, h3]

/-- C6 witness: the successful-case equation evaluated on a concrete
one-instance region. -/
theorem regionSummary_sorted_and_stable_check :
    (GetDeployedInstances "us-east-1" [] InstanceStatus [] alphaResponses).1.Instances
      = sortSliceStable (classifyAll "us-east-1" [] [] [[rawAlpha]]) :=
  (regionSummary_sorted_and_stable "us-east-1" [] InstanceStatus [] alphaResponses).2.2
    [[rawAlpha]] [] [] rfl rfl rfl

/-- C7 counterexample: on a matched set with zero instances the prompt does
not return an empty `AccountSummary`; it prints the no-instances label and
exits the process (modelled as no returned value, without prompting). -/
theorem Prompt_empty_exits_process :
    AccountSummary.Prompt [] InstanceStop "Y" = (none, false)
    ∧ (AccountSummary.Prompt [] InstanceStop "Y").1 ≠ some ([] : AccountSummary) :=
  ⟨rfl, by simp [AccountSummary.Prompt]⟩

/-- C7 amended: the prompt returns the matched summary unmodified on the
affirmative input, the empty summary on any other input, and with zero
matches it terminates the process without prompting instead of returning. -/
theorem Prompt_gate_behavior (u : AccountSummary) (action input : String) :
    (u = [] → AccountSummary.Prompt u action input = (none, false))
    ∧ (u ≠ [] → input = "Y" → AccountSummary.Prompt u action input = (some u, true))
    ∧ (u ≠ [] → input ≠ "Y" → AccountSummary.Prompt u action input
        = (some ([] : AccountSummary), true)) := by
  refine ⟨?_, ?_, ?_⟩
  · rintro rfl
    rfl
  · intro hu hin
    subst hin
    cases u with
    | nil => exact absurd rfl hu
    | cons a l => simp [AccountSummary.Prompt]
  · intro hu hin
    cases u with
    | nil => exact absurd rfl hu
    | cons a l =>
      have : (input == "Y") = false := beq_eq_false_iff_ne.mpr hin
      simp [AccountSummary.Prompt, this]

/-- C7 witness: the amended behaviour at a concrete non-empty summary and
at the empty summary. -/
theorem Prompt_gate_behavior_check :
    AccountSummary.Prompt sampleSummary InstanceStop "Y" = (some sampleSummary, true)
    ∧ AccountSummary.Prompt [] InstanceStop "n" = (none, false) :=
  ⟨(Prompt_gate_behavior sampleSummary InstanceStop "Y").2.1 (by simp [sampleSummary]) rfl,
   (Prompt_gate_behavior [] InstanceStop "n").1 rfl⟩

/-- C8: the classification loop is not a per-record function: a record
whose ip-address and hibernation pointers are nil inherits the previous
record's values, so the same record classifies differently depending on
its predecessors (`rawBeta` after `rawAlpha` versus `rawBeta` alone). -/
theorem classifyLoop_carries_state_across_records :
    (classifyAll "us-east-1" [] [] [[rawAlpha, rawBeta]]).map (fun i => i.IP)
      = ["10.0.0.1", "10.0.0.1"]
    ∧ (classifyAll "us-east-1" [] [] [[rawBeta]]).map (fun i => i.IP) = [""]
    ∧ (classifyAll "us-east-1" [] [] [[rawAlpha, rawBeta]]).map (fun i => i.Hibernation)
      = [true, true]
    ∧ (classifyAll "us-east-1" [] [] [[rawBeta]]).map (fun i => i.Hibernation) = [false] :=
  ⟨rfl, rfl, rfl, rfl⟩

/-- C9: the instance-id validation is not fully anchored: a 19-character
all-lowercase string that does not begin with `i-` is accepted by
`validateInstanceArgs`, because the second alternative of the pattern
matches its 17-character run anywhere in the string. -/
theorem validateInstanceArgs_accepts_unanchored_id :
    "abcdefghijklmnopqrs".length = 19
    ∧ "abcdefghijklmnopqrs".toList.take 2 ≠ ['i', '-']
    ∧ "abcdefghijklmnopqrs".toList.all (fun c => 'a' ≤ c && c ≤ 'z') = true
    ∧ validateInstanceArgs [] ["abcdefghijklmnopqrs"] = .ok () :=
  ⟨rfl, by decide, rfl, rfl⟩

/-- C10: with a non-empty matched set, the prompt treats exactly the single
uppercase character `Y` as affirmative; every other input returns the empty
summary, aborting the dispatch. -/
theorem Prompt_affirmative_only_uppercase_Y (u : AccountSummary) (action input : String)
    (hu : u ≠ []) :
    (AccountSummary.Prompt u action input = (some u, true) ↔ input = "Y")
    ∧ (input ≠ "Y" → AccountSummary.Prompt u action input
        = (some ([] : AccountSummary), true)) := by
  have hlen : (u.length == 0) = false := by
    cases u with
    | nil => exact absurd rfl hu
    | cons a l => rfl
  constructor
  · constructor
    · intro h
      by_cases hin : input = "Y"
      · exact hin
      · exfalso
        have hne : (input == "Y") = false := beq_eq_false_iff_ne.mpr hin
        rw [AccountSummary.Prompt] at h
        simp only [hlen, Bool.false_eq_true, if_false, hne] at h
        have := congrArg Prod.fst h
        simp only at this
        rw [Option.some_inj] at this
        exact hu this.symm
    · rintro rfl
      rw [AccountSummary.Prompt]
      simp [hlen]
  · intro hin
    have hne : (input == "Y") = false := beq_eq_false_iff_ne.mpr hin
    rw [AccountSummary.Prompt]
    simp [hlen, hne]

/-- C10 witness: lowercase `y`, the word `yes` and empty input all return
the empty summary, while `Y` returns the matched summary. -/
theorem Prompt_affirmative_only_uppercase_Y_check :
    (AccountSummary.Prompt sampleSummary InstanceStop "y").1 = some ([] : AccountSummary)
    ∧ (AccountSummary.Prompt sampleSummary InstanceStop "yes").1 = some ([] : AccountSummary)
    ∧ (AccountSummary.Prompt sampleSummary InstanceStop "").1 = some ([] : AccountSummary)
    ∧ AccountSummary.Prompt sampleSummary InstanceStop "Y" = (some sampleSummary, true) := by
  refine ⟨?_, ?_, ?_, ?_⟩
  · rw [(Prompt_affirmative_only_uppercase_Y sampleSummary InstanceStop "y"
      (by simp [sampleSummary])).2 (by decide)]
  · rw [(Prompt_affirmative_only_uppercase_Y sampleSummary InstanceStop "yes"
      (by simp [sampleSummary])).2 (by decide)]
  · rw [(Prompt_affirmative_only_uppercase_Y sampleSummary InstanceStop ""
      (by simp [sampleSummary])).2 (by decide)]
  · exact (Prompt_affirmative_only_uppercase_Y sampleSummary InstanceStop "Y"
      (by simp [sampleSummary])).1.mpr rfl

end Ec2ctl
